import Mathlib

/-!
Verification development for the CF-Gallery crawler (src/CIXIU2.0.py).

The file shallowly embeds the parts of the program that the claims are
about: the pacing controller (AntiAntiCrawler), the rest policies, the
challenge resolver (solve_captcha_and_click_submit), the status
classification of process_subpage, the ledger (scraped_urls /
crawled_urls tables), the per-item orchestration of
CreativeFabricaScraper.scrape together with process_download, the two
download_zip_file state machines, and get_unique_filename.

Modelling conventions:
* Python floats are modelled as exact rationals (the source only uses
  simple decimal constants).
* Randomness (random.random / random.uniform / random.choice) is an
  input: a Boolean for each coin flip, and a rational sample constrained
  by the uniform contract in the hypotheses of theorems.
* The browser, the filesystem and the external recognition service are
  external collaborators; their responses are inputs (environments).
  A browser call that can raise is modelled by an input describing its
  outcome; the surrounding try/except structure of the source is
  reproduced in the control flow of the embedding.
* Wall-clock time during download polling is an abstract counter that
  advances by one on every 1-second poll sleep and on every CAPTCHA
  solve attempt; directory contents are a function of that counter.
-/

namespace CFGallery

/-! ## Pacing controller: AntiAntiCrawler (src/CIXIU2.0.py lines 357-563 and 1546-1662) -/

/-- Volume multiplier of `AntiAntiCrawler.smart_wait`
(lines 426-428 / 1585-1586):
`request_factor = min(1.0 + (request_count // 200) * 0.1, 2.0)`. -/
def requestFactor (rc : Nat) : ℚ :=
  min (1 + ((rc / 200 : Nat) : ℚ) * (1/10)) 2

/-- Time-of-day multiplier of `get_current_mode_multiplier`
(lines 397-408 / 1575-1581): 0.8 for hours 0-7, 1.2 for hours 9-12 and
14-18, 1.0 otherwise. -/
def modeMult (hour : Nat) : ℚ :=
  if hour ≤ 7 then 4/5
  else if (9 ≤ hour ∧ hour ≤ 12) ∨ (14 ≤ hour ∧ hour ≤ 18) then 6/5
  else 1

/-- `WAIT_CONFIG` lookup of `smart_wait` (lines 362-369 and 431-437):
a scalar entry acts as (value, value); an unknown key falls back to
`between_actions`. -/
def waitConfig (kind : String) : ℚ × ℚ :=
  if kind = "page_load" then (3, 8)
  else if kind = "element_find" then (2, 5)
  else if kind = "between_actions" then (4, 10)
  else if kind = "between_pages" then (10, 20)
  else if kind = "download_timeout" then (60, 60)
  else if kind = "captcha_solve" then (10, 10)
  else (4, 10)

/-- Effective lower bound computed by `smart_wait` (lines 440-447):
`min_time = (min_override or config_min) * multiplier * request_factor`. -/
def effMin (kind : String) (minO : Option ℚ) (hour rc : Nat) : ℚ :=
  (minO.getD (waitConfig kind).1) * modeMult hour * requestFactor rc

/-- Effective upper bound computed by `smart_wait` (lines 440-447),
before the fat-tail branch. -/
def effMax (kind : String) (maxO : Option ℚ) (hour rc : Nat) : ℚ :=
  (maxO.getD (waitConfig kind).2) * modeMult hour * requestFactor rc

/-- The 20%-probability fat-tail scaling of the upper bound
(lines 450-451): `if random.random() < 0.2: max_time = max_time * 1.5`. -/
def sampleUpper (mx : ℚ) (fatTail : Bool) : ℚ :=
  if fatTail then mx * (3/2) else mx

lemma requestFactor_ge_one (rc : Nat) : 1 ≤ requestFactor rc := by
  unfold requestFactor
  refine le_min ?_ (by norm_num)
  have : (0:ℚ) ≤ ((rc / 200 : Nat) : ℚ) * (1/10) := by positivity
  linarith

lemma modeMult_pos (hour : Nat) : 0 < modeMult hour := by
  unfold modeMult
  split
  · norm_num
  · split <;> norm_num

/-- Claim C6: the volume multiplier equals
min(2, 1 + 0.1 * floor(rc / 200)); it is monotonically non-decreasing in
the request count, never exceeds 2, takes value 1 at request 0, 1.1 at
request 200, and is 2 for all request counts of 2000 and above. -/
theorem volume_multiplier_spec :
    (∀ rc : Nat, requestFactor rc = min (1 + ((rc / 200 : Nat) : ℚ) * (1/10)) 2) ∧
    (∀ a b : Nat, a ≤ b → requestFactor a ≤ requestFactor b) ∧
    (∀ rc : Nat, requestFactor rc ≤ 2) ∧
    requestFactor 0 = 1 ∧
    requestFactor 200 = 11/10 ∧
    (∀ rc : Nat, 2000 ≤ rc → requestFactor rc = 2) := by
  refine ⟨fun rc => rfl, ?_, ?_, ?_, ?_, ?_⟩
  · intro a b hab
    unfold requestFactor
    have hdiv : a / 200 ≤ b / 200 := Nat.div_le_div_right hab
    have hcast : ((a / 200 : Nat) : ℚ) ≤ ((b / 200 : Nat) : ℚ) := by
      exact_mod_cast hdiv
    have : 1 + ((a / 200 : Nat) : ℚ) * (1/10) ≤ 1 + ((b / 200 : Nat) : ℚ) * (1/10) := by
      linarith
    exact min_le_min this le_rfl
  · intro rc; exact min_le_right _ _
  · norm_num [requestFactor]
  · norm_num [requestFactor]
  · intro rc hrc
    unfold requestFactor
    have h10 : 10 ≤ rc / 200 := by omega
    have hcast : (10 : ℚ) ≤ ((rc / 200 : Nat) : ℚ) := by exact_mod_cast h10
    have : (2:ℚ) ≤ 1 + ((rc / 200 : Nat) : ℚ) * (1/10) := by linarith
    exact min_eq_right this

/-- Witness for C6 at concrete request counts. -/
theorem volume_multiplier_spec_witness :
    requestFactor 100 ≤ requestFactor 300 ∧ requestFactor 2500 = 2 :=
  ⟨volume_multiplier_spec.2.1 100 300 (by norm_num),
   volume_multiplier_spec.2.2.2.2.2 2500 (by norm_num)⟩

/-- Claim C7: every wait kind has well-ordered nonnegative base bounds,
and for every random outcome the sampled wait lies within
[min_bound, max_bound * 1.5] of the effective bounds, the fat-tail
scaling of the upper bound being applied (with probability 0.2) before
the uniform sample is drawn in [min, max]. -/
theorem smart_wait_bounds :
    (∀ kind : String,
      0 ≤ (waitConfig kind).1 ∧ (waitConfig kind).1 ≤ (waitConfig kind).2) ∧
    (∀ (kind : String) (minO maxO : Option ℚ) (hour rc : Nat) (fatTail : Bool) (u : ℚ),
      0 ≤ maxO.getD (waitConfig kind).2 →
      effMin kind minO hour rc ≤ u →
      u ≤ sampleUpper (effMax kind maxO hour rc) fatTail →
      effMin kind minO hour rc ≤ u ∧ u ≤ effMax kind maxO hour rc * (3/2)) := by
  constructor
  · intro kind
    unfold waitConfig
    split
    · norm_num
    · split
      · norm_num
      · split
        · norm_num
        · split
          · norm_num
          · split
            · norm_num
            · split <;> norm_num
  · intro kind minO maxO hour rc fatTail u hb hlo hhi
    refine ⟨hlo, ?_⟩
    have hmaxNN : 0 ≤ effMax kind maxO hour rc := by
      unfold effMax
      have h1 := modeMult_pos hour
      have h2 := requestFactor_ge_one rc
      positivity
    cases fatTail with
    | true => simpa [sampleUpper] using hhi
    | false =>
      have : effMax kind maxO hour rc ≤ effMax kind maxO hour rc * (3/2) := by
        nlinarith
      simp only [sampleUpper] at hhi
      simp only [Bool.false_eq_true, if_false] at hhi
      linarith

/-- Witness for C7: a concrete page-load wait during peak hours. -/
theorem smart_wait_bounds_witness :
    effMin "page_load" none 10 0 ≤ 4 ∧ 4 ≤ effMax "page_load" none 10 0 * (3/2) :=
  smart_wait_bounds.2 "page_load" none none 10 0 true 4
    (by norm_num [waitConfig])
    (by norm_num [effMin, waitConfig, modeMult, requestFactor])
    (by norm_num [sampleUpper, effMax, waitConfig, modeMult, requestFactor])

/-! ## Rest policies (lines 528-563 / 1646-1662) -/

/-- `max_continuous_hours` (line 388 / 1570): the continuous-runtime
ceiling that triggers a long rest. -/
def maxContinuousHours : ℚ := 12

/-- `big_break_hours` (line 389 / 1571): the configured long-break base
duration. -/
def bigBreakHours : ℚ := 1

/-- The mutable pacing state of `AntiAntiCrawler`: the request counter
and the session start time (lines 384-385 / 1567-1568). -/
structure PacingState where
  requestCount : Nat
  sessionStart : ℚ
deriving DecidableEq

/-- `take_big_break` (lines 528-542 / 1646-1651): sleeps
`big_break_hours + uniform(0, 0.5)` hours, then sets
`session_start_time` to the wall-clock time `tAfter` at which the sleep
ends. Returns (hours slept, new state); `u` is the uniform(0, 0.5)
sample. -/
def takeBigBreak (st : PacingState) (u tAfter : ℚ) : ℚ × PacingState :=
  (bigBreakHours + u, { requestCount := st.requestCount, sessionStart := tAfter })

/-- `take_short_break` (lines 559-563 / 1659-1662): sleeps a
uniform(30, 60) sample `u` seconds and touches no state. -/
def takeShortBreak (st : PacingState) (u : ℚ) : ℚ × PacingState :=
  (u, st)

/-- Counterexample to claim C9: the long rest does not sleep
ceiling_hours + uniform(0, 0.5) hours.  With the uniform sample at 0 it
sleeps `big_break_hours = 1` hour, not the 12-hour continuous-runtime
ceiling. -/
theorem big_break_not_ceiling_hours :
    (takeBigBreak ⟨0, 0⟩ 0 0).1 = 1 ∧ maxContinuousHours = 12 ∧
      (takeBigBreak ⟨0, 0⟩ 0 0).1 ≠ maxContinuousHours + 0 := by
  refine ⟨?_, rfl, ?_⟩ <;> norm_num [takeBigBreak, bigBreakHours, maxContinuousHours]

/-- Claim C9 (amended): a triggered long rest sleeps
big_break_hours (= 1) + uniform(0, 0.5) hours — hence between 1 and 1.5
hours — and then resets the session start time to the current time while
leaving the request count unchanged; a short rest sleeps its
uniform(30, 60) sample and leaves all pacing state unchanged. -/
theorem rest_policy_spec (st : PacingState) (u v tAfter : ℚ)
    (hu0 : 0 ≤ u) (hu1 : u ≤ 1/2) :
    (takeBigBreak st u tAfter).1 = bigBreakHours + u ∧
    bigBreakHours ≤ (takeBigBreak st u tAfter).1 ∧
    (takeBigBreak st u tAfter).1 ≤ bigBreakHours + 1/2 ∧
    (takeBigBreak st u tAfter).2.sessionStart = tAfter ∧
    (takeBigBreak st u tAfter).2.requestCount = st.requestCount ∧
    (takeShortBreak st v).1 = v ∧
    (takeShortBreak st v).2 = st := by
  refine ⟨rfl, ?_, ?_, rfl, rfl, rfl, rfl⟩ <;>
    simp only [takeBigBreak] <;> linarith

/-- Witness for the amended C9 at a concrete state and sample. -/
theorem rest_policy_spec_witness :
    (takeBigBreak ⟨5, 3⟩ (1/4) 99).1 = bigBreakHours + 1/4 ∧
    bigBreakHours ≤ (takeBigBreak ⟨5, 3⟩ (1/4) 99).1 ∧
    (takeBigBreak ⟨5, 3⟩ (1/4) 99).1 ≤ bigBreakHours + 1/2 ∧
    (takeBigBreak ⟨5, 3⟩ (1/4) 99).2.sessionStart = 99 ∧
    (takeBigBreak ⟨5, 3⟩ (1/4) 99).2.requestCount = 5 ∧
    (takeShortBreak ⟨5, 3⟩ 45).1 = 45 ∧
    (takeShortBreak ⟨5, 3⟩ 45).2 = (⟨5, 3⟩ : PacingState) :=
  rest_policy_spec ⟨5, 3⟩ (1/4) 45 99 (by norm_num) (by norm_num)

/-! ## Challenge resolver: solve_captcha_and_click_submit
(lines 820-857; the variant at lines 1783-1818 is identical except for
an extra 3-second sleep after a successful click). -/

/-- Observable steps of the challenge resolver. -/
inductive CEv
  | callSolve
  | sleepSec (n : Nat)
  | lookupSubmit
  | clickSubmit
deriving DecidableEq

/-- `solve_captcha_and_click_submit`: calls the external
`recaptcha_solver.solveCaptcha()` inside its own try/except — an
exception is swallowed and followed by `time.sleep(2)` — then looks up
the submit button; if found it is clicked and the function returns True
(a raise during the click is caught by the outer except, which returns
False); if absent the function returns False.  `solveRaises` is whether
the external routine raises, `submitFound` whether the submit control is
found, `clickRaises` whether clicking it raises. -/
def solveCaptchaAndClickSubmit (solveRaises submitFound clickRaises : Bool) :
    Bool × List CEv :=
  let pre : List CEv :=
    CEv.callSolve :: (if solveRaises then [CEv.sleepSec 2] else [])
  let evs := pre ++ [CEv.lookupSubmit]
  if submitFound then
    if clickRaises then (false, evs ++ [CEv.clickSubmit])
    else (true, evs ++ [CEv.clickSubmit])
  else (false, evs)

/-- Claim C8: the challenge-resolution routine never propagates an
exception of the external solve call — it is swallowed, a fixed 2-second
sleep follows, and control always continues to the submit-button lookup;
the routine returns true exactly when the submit control is found and
clicked without raising, and false otherwise. -/
theorem challenge_resolver_spec :
    ∀ solveRaises submitFound clickRaises : Bool,
      (solveCaptchaAndClickSubmit solveRaises submitFound clickRaises).1
        = (submitFound && !clickRaises) ∧
      CEv.lookupSubmit ∈ (solveCaptchaAndClickSubmit solveRaises submitFound clickRaises).2 ∧
      (CEv.sleepSec 2 ∈ (solveCaptchaAndClickSubmit solveRaises submitFound clickRaises).2
        ↔ solveRaises = true) := by
  decide

/-! ## Status classification of process_subpage (lines 1239-1241) -/

/-- The outcome classification of `process_subpage`:
`success_count = img + pdf + zip`;
`status = "partial_success" if (img or pdf) and not zip
          else "success" if success_count > 0 else "failed"`. -/
def statusOf (img pdf zip : Bool) : String :=
  let successCount :=
    (if img then 1 else 0) + (if pdf then 1 else 0) + (if zip then 1 else 0)
  if (img || pdf) && !zip then "partial_success"
  else if successCount > 0 then "success"
  else "failed"

/-- Claim C3: the recorded status is partial_success exactly when the
image or PDF succeeded and the ZIP failed; success when at least one
artifact succeeded and the partial condition does not hold (in
particular a ZIP-only success is scored success); failed when no
artifact succeeded. -/
theorem status_classification :
    ∀ img pdf zip : Bool,
      (statusOf img pdf zip = "partial_success" ↔ ((img || pdf) && !zip) = true) ∧
      (statusOf img pdf zip = "success" ↔
        ((img || pdf || zip) = true ∧ ¬ ((img || pdf) && !zip) = true)) ∧
      (statusOf img pdf zip = "failed" ↔ (img = false ∧ pdf = false ∧ zip = false)) ∧
      statusOf false false true = "success" := by
  decide

/-! ## The ledger (scraped_urls table, lines 1499-1544; crawled_urls
table, lines 22-96).  A ledger is a list of (url, status) rows; both
tables key rows by url and upsert with INSERT OR REPLACE. -/

/-- A durable ledger: (url, status) rows, unique url key. -/
abbrev Ledger := List (String × String)

/-- The "done" status allow-list of `is_scraped` (line 1530). -/
def doneStatuses : List String := ["success", "downloaded", "partial_success"]

/-- `DatabaseManager.is_scraped` of the t-shirt variant (lines
1528-1531): true iff some row for the url has a done status. -/
def isScraped (db : Ledger) (url : String) : Bool :=
  db.any fun e => e.1 == url && doneStatuses.contains e.2

/-- `DatabaseManager.is_url_crawled` of the embroidery variant (lines
72-80): true iff ANY row for the url exists, regardless of status. -/
def isUrlCrawled (db : Ledger) (url : String) : Bool :=
  db.any fun e => e.1 == url

/-- `mark_scraped` / `mark_url_crawled` (lines 1533-1541 / 82-96):
INSERT OR REPLACE keyed by url. -/
def markScraped (db : Ledger) (url status : String) : Ledger :=
  if db.any (fun e => e.1 == url) then
    db.map fun e => if e.1 == url then (url, status) else e
  else (url, status) :: db

/-- The link pre-filter of `get_subpage_links_from_page` in the
embroidery variant (lines 656-668): keep only links not yet crawled. -/
def filterNewLinks (db : Ledger) (links : List String) : List String :=
  links.filter fun u => !(isUrlCrawled db u)

/-- Counterexample to claim C4: the embroidery-variant pre-check skips a
URL whose ledger status is "failed", which is not a done status — so the
pre-check does not skip only done-status URLs. -/
theorem dedup_skips_failed_url :
    isUrlCrawled [("u", "failed")] "u" = true ∧
    filterNewLinks [("u", "failed")] ["u"] = [] ∧
    doneStatuses.contains "failed" = false ∧
    isScraped [("u", "failed")] "u" = false := by
  decide

/-! ## Orchestrator of the t-shirt variant: CreativeFabricaScraper.scrape
(lines 2107-2198) with process_download (lines 2064-2105).

Per-item observable events.  Pacing sleeps (smart_wait, rest breaks) and
pure reads (title lookup, title cleaning) are timing-only and carry no
event.  An exception raised anywhere inside process_download's try block
before the first ledger write is represented by `extractOk = false`
(extraction and the PNG moves all precede the first write there and all
route to the same except handler); an exception during the post-write
cleanup (os.remove / shutil.rmtree, lines 2100-2101) is represented by
`cleanupOk = false`. -/

/-- Observable side effects of processing one item. -/
inductive Ev
  | nav (url : String)
  | pageNav (n : Nat)
  | write (url status : String)
  | extract
  | movePng (f : String)
  | removeZip
  | removeTree
deriving DecidableEq

/-- Environment describing how the world answers during one item. -/
structure ItemEnv where
  url : String
  /-- page.get / smart_wait raises for this item (caught at line 2188). -/
  getRaises : Bool
  /-- the listing-date element is found (line 2148). -/
  dateFound : Bool
  /-- result of parse_date on its text, as a day number (none = parse
  failure, line 2151). -/
  listedDate : Option Int
  /-- first component of the download_zip_file result (line 2168). -/
  zipOk : Bool
  /-- second component of the download_zip_file result. -/
  zipPath : Option String
  /-- the ZIP extraction (and PNG moves) in process_download complete
  without raising (lines 2072-2093). -/
  extractOk : Bool
  /-- PNG files found inside the extracted archive (lines 2076-2080). -/
  pngs : List String
  /-- the post-write cleanup (lines 2100-2101) completes without
  raising. -/
  cleanupOk : Bool

/-- `process_download` (lines 2064-2105): extract the archive, move every
PNG into the save root (ledger: success) or record partial_success when
the archive holds no PNG, then delete the archive and the extraction
directory; any exception is caught and recorded as failed. -/
def processDownload (db : Ledger) (url : String) (it : ItemEnv) :
    List Ev × Ledger :=
  if !it.extractOk then
    ([Ev.write url "failed"], markScraped db url "failed")
  else if it.pngs.isEmpty then
    let db1 := markScraped db url "partial_success"
    if it.cleanupOk then
      ([Ev.extract, Ev.write url "partial_success", Ev.removeZip, Ev.removeTree], db1)
    else
      ([Ev.extract, Ev.write url "partial_success", Ev.write url "failed"],
       markScraped db1 url "failed")
  else
    let moves := it.pngs.map Ev.movePng
    let db1 := markScraped db url "success"
    if it.cleanupOk then
      (Ev.extract :: moves ++ [Ev.write url "success", Ev.removeZip, Ev.removeTree], db1)
    else
      (Ev.extract :: moves ++ [Ev.write url "success", Ev.write url "failed"],
       markScraped db1 url "failed")

/-- Whether the per-item date stop condition trips (lines 2148-2159):
the date element was found, parse_date succeeded, and the listing is
more than 2 days older than `today`. -/
def dateTrips (today : Int) (it : ItemEnv) : Bool :=
  it.dateFound &&
    (match it.listedDate with
     | some d => decide (today - d > 2)
     | none => false)

/-- One iteration of the per-URL loop of `scrape` (lines 2126-2192):
skip if the ledger says done; otherwise navigate; on the date trip set
the stop flag and break without writing; otherwise download the ZIP and
either record downloaded + run process_download, or record failed.  Any
exception inside the per-item try is recorded as failed (line 2190).
Returns (events, ledger, stop flag). -/
def scrapeItem (today : Int) (db : Ledger) (it : ItemEnv) :
    List Ev × Ledger × Bool :=
  if isScraped db it.url then ([], db, false)
  else if it.getRaises then
    ([Ev.nav it.url, Ev.write it.url "failed"],
     markScraped db it.url "failed", false)
  else if dateTrips today it then
    ([Ev.nav it.url], db, true)
  else if it.zipOk && it.zipPath.isSome then
    (Ev.nav it.url :: Ev.write it.url "downloaded" ::
       (processDownload (markScraped db it.url "downloaded") it.url it).1,
     (processDownload (markScraped db it.url "downloaded") it.url it).2, false)
  else
    ([Ev.nav it.url, Ev.write it.url "failed"],
     markScraped db it.url "failed", false)

/-- The per-page loop of `scrape` over the product URLs of one listing
page, breaking as soon as the stop flag is set (line 2159). -/
def processPage (today : Int) (db : Ledger) : List ItemEnv → List Ev × Ledger × Bool
  | [] => ([], db, false)
  | it :: rest =>
    let r := scrapeItem today db it
    if r.2.2 then (r.1, r.2.1, true)
    else
      let r2 := processPage today r.2.1 rest
      (r.1 ++ r2.1, r2.2)

/-- The outer while-loop of `scrape` (lines 2111-2194): fetch listing
page `pnum`, stop when it yields no products, otherwise process its
items and continue with the next page unless the stop flag was set.
`fuel` bounds the number of listing pages visited. -/
def scrapeAux (pages : Nat → List ItemEnv) (today : Int) :
    Nat → Nat → Ledger → List Ev
  | 0, _, _ => []
  | fuel + 1, pnum, db =>
    let items := pages pnum
    if items.isEmpty then []
    else
      let r := processPage today db items
      Ev.pageNav pnum :: (if r.2.2 then r.1 else r.1 ++ scrapeAux pages today fuel (pnum + 1) r.2.1)

/-- Number of ledger writes in an event list. -/
def countWrites : List Ev → Nat
  | [] => 0
  | Ev.write _ _ :: es => 1 + countWrites es
  | _ :: es => countWrites es

lemma countWrites_append (a b : List Ev) :
    countWrites (a ++ b) = countWrites a + countWrites b := by
  induction a with
  | nil => simp [countWrites]
  | cons e es ih =>
    cases e <;> simp [countWrites, ih, Nat.add_assoc]

lemma countWrites_moves (fs : List String) :
    countWrites (fs.map Ev.movePng) = 0 := by
  induction fs with
  | nil => rfl
  | cons f fs ih => simpa [countWrites] using ih

/-- A concrete clean ZIP-success item. -/
def zipOkItem : ItemEnv :=
  { url := "u", getRaises := false, dateFound := false, listedDate := none,
    zipOk := true, zipPath := some "d/a.zip", extractOk := true,
    pngs := ["x.png"], cleanupOk := true }

/-- Counterexample to claim C2: on the ZIP-success path the ledger is
written twice for one item — an immediate "downloaded" record (line
2173) before extraction, then the final outcome record — not exactly
once, and the first write precedes the extraction and move work. -/
theorem ledger_double_write :
    countWrites (scrapeItem 0 [] zipOkItem).1 = 2 ∧
    (scrapeItem 0 [] zipOkItem).1 =
      [Ev.nav "u", Ev.write "u" "downloaded", Ev.extract, Ev.movePng "x.png",
       Ev.write "u" "success", Ev.removeZip, Ev.removeTree] := by
  decide

lemma countWrites_processDownload (db : Ledger) (url : String) (it : ItemEnv) :
    1 ≤ countWrites (processDownload db url it).1 ∧
    countWrites (processDownload db url it).1 ≤ 2 := by
  unfold processDownload
  split
  · simp [countWrites]
  · split
    · split <;> simp [countWrites]
    · split <;>
        simp [countWrites, countWrites_append, countWrites_moves]

/-- Claim C2 (amended): every item that reaches processing (not skipped
by the done-status pre-check and not stopped by the date condition)
writes the ledger at least once and at most three times.  When the ZIP
download fails or the item raises, exactly one write records the
outcome.  When the ZIP download succeeds, an immediate "downloaded"
write occurs before any extraction or move work, followed by the writes
of process_download (one outcome write, plus a second "failed" write
only when the post-write cleanup raises). -/
theorem ledger_write_discipline (today : Int) (db : Ledger) (it : ItemEnv)
    (hskip : isScraped db it.url = false)
    (hstop : (scrapeItem today db it).2.2 = false) :
    (1 ≤ countWrites (scrapeItem today db it).1 ∧
      countWrites (scrapeItem today db it).1 ≤ 3) ∧
    ((it.getRaises = true ∨ (it.zipOk && it.zipPath.isSome) = false) →
      countWrites (scrapeItem today db it).1 = 1) ∧
    (it.getRaises = false → (it.zipOk && it.zipPath.isSome) = true →
      (scrapeItem today db it).1 =
        Ev.nav it.url :: Ev.write it.url "downloaded" ::
          (processDownload (markScraped db it.url "downloaded") it.url it).1) := by
  have hpd := countWrites_processDownload
    (markScraped db it.url "downloaded") it.url it
  unfold scrapeItem at hstop ⊢
  rw [hskip] at hstop ⊢
  simp only [Bool.false_eq_true, if_false] at hstop ⊢
  by_cases hg : it.getRaises = true
  · rw [if_pos hg]
    exact ⟨⟨by simp [countWrites], by simp [countWrites]⟩,
      fun _ => by simp [countWrites],
      fun hgf _ => absurd (hgf ▸ hg) (by decide)⟩
  · rw [if_neg hg] at hstop ⊢
    by_cases hd : dateTrips today it = true
    · rw [if_pos hd] at hstop
      simp at hstop
    · rw [if_neg hd] at hstop ⊢
      by_cases hz : (it.zipOk && it.zipPath.isSome) = true
      · rw [if_pos hz]
        refine ⟨⟨?_, ?_⟩, ?_, fun _ _ => rfl⟩
        · simp only [countWrites]
          omega
        · simp only [countWrites]
          omega
        · intro hcase
          rcases hcase with h | h
          · exact absurd h hg
          · exact absurd h (by rw [hz]; decide)
      · rw [if_neg hz]
        exact ⟨⟨by simp [countWrites], by simp [countWrites]⟩,
          fun _ => by simp [countWrites],
          fun _ hz' => absurd hz' hz⟩

/-- Witness for the amended C2 at a concrete failing item. -/
theorem ledger_write_discipline_witness :
    (1 ≤ countWrites (scrapeItem 0 [] { zipOkItem with zipOk := false }).1 ∧
      countWrites (scrapeItem 0 [] { zipOkItem with zipOk := false }).1 ≤ 3) ∧
    (({ zipOkItem with zipOk := false } : ItemEnv).getRaises = true ∨
        (({ zipOkItem with zipOk := false } : ItemEnv).zipOk &&
          ({ zipOkItem with zipOk := false } : ItemEnv).zipPath.isSome) = false →
      countWrites (scrapeItem 0 [] { zipOkItem with zipOk := false }).1 = 1) ∧
    (({ zipOkItem with zipOk := false } : ItemEnv).getRaises = false →
      (({ zipOkItem with zipOk := false } : ItemEnv).zipOk &&
        ({ zipOkItem with zipOk := false } : ItemEnv).zipPath.isSome) = true →
      (scrapeItem 0 [] { zipOkItem with zipOk := false }).1 =
        Ev.nav ({ zipOkItem with zipOk := false } : ItemEnv).url ::
          Ev.write ({ zipOkItem with zipOk := false } : ItemEnv).url "downloaded" ::
          (processDownload (markScraped [] ({ zipOkItem with zipOk := false } : ItemEnv).url "downloaded")
            ({ zipOkItem with zipOk := false } : ItemEnv).url
            { zipOkItem with zipOk := false }).1) :=
  ledger_write_discipline 0 [] { zipOkItem with zipOk := false }
    (by decide) (by decide)

/-- Claim C4 (amended): the t-shirt-variant pre-check (is_scraped) holds
exactly for URLs having a ledger row with a done status
(success/downloaded/partial_success), and a held pre-check makes the
orchestrator skip the item with no navigation and no ledger change; the
embroidery-variant pre-check (is_url_crawled) instead holds for ANY url
with a ledger row, regardless of status. -/
theorem dedup_pre_check_spec :
    (∀ (db : Ledger) (url : String),
      isScraped db url = true ↔ ∃ e ∈ db, e.1 = url ∧ e.2 ∈ doneStatuses) ∧
    (∀ (db : Ledger) (url : String),
      isUrlCrawled db url = true ↔ ∃ e ∈ db, e.1 = url) ∧
    (∀ (today : Int) (db : Ledger) (it : ItemEnv),
      isScraped db it.url = true → scrapeItem today db it = ([], db, false)) := by
  refine ⟨fun db url => ?_, fun db url => ?_, fun today db it h => ?_⟩
  · simp [isScraped, List.any_eq_true]
  · simp [isUrlCrawled, List.any_eq_true]
  · simp [scrapeItem, h]

/-- Witness for the amended C4: a done-status URL is skipped with no
events, and the two pre-checks differ on a failed-status URL. -/
theorem dedup_pre_check_spec_witness :
    scrapeItem 0 [("u", "success")] zipOkItem = ([], [("u", "success")], false) :=
  dedup_pre_check_spec.2.2 0 [("u", "success")] zipOkItem (by decide)

lemma scrapeItem_stops (today : Int) (db : Ledger) (it : ItemEnv)
    (hskip : isScraped db it.url = false) (hg : it.getRaises = false)
    (hd : dateTrips today it = true) :
    scrapeItem today db it = ([Ev.nav it.url], db, true) := by
  simp [scrapeItem, hskip, hg, hd]

lemma processPage_append (today : Int) (db : Ledger) (xs l : List ItemEnv)
    (h : (processPage today db xs).2.2 = false) :
    processPage today db (xs ++ l) =
      ((processPage today db xs).1 ++
         (processPage today (processPage today db xs).2.1 l).1,
       (processPage today (processPage today db xs).2.1 l).2) := by
  induction xs generalizing db with
  | nil => simp [processPage]
  | cons it xs ih =>
    simp only [List.cons_append, processPage] at h ⊢
    cases hs : (scrapeItem today db it).2.2 with
    | true => rw [hs] at h; simp at h
    | false =>
      simp only [hs, Bool.false_eq_true, if_false] at h ⊢
      simp only [List.append_eq] at h ⊢
      rw [ih (scrapeItem today db it).2.1 h, List.append_assoc]

/-- Claim C5: when the per-item date stop condition trips (the parsed
listing date is more than the 2-day threshold older than today), the
crawl trace ends at that very item: the remaining items of the current
page and all later pages contribute no navigation and no processing —
the whole remaining run equals the prefix up to the tripping item's
navigation. -/
theorem date_stop_halts_crawl (pages : Nat → List ItemEnv) (today : Int)
    (fuel pnum : Nat) (db : Ledger) (xs zs : List ItemEnv) (y : ItemEnv)
    (hpage : pages pnum = xs ++ y :: zs)
    (hxs : (processPage today db xs).2.2 = false)
    (hskip : isScraped (processPage today db xs).2.1 y.url = false)
    (hg : y.getRaises = false)
    (hd : dateTrips today y = true) :
    scrapeAux pages today (fuel + 1) pnum db =
      Ev.pageNav pnum :: ((processPage today db xs).1 ++ [Ev.nav y.url]) := by
  have hy := scrapeItem_stops today (processPage today db xs).2.1 y hskip hg hd
  have hfull : processPage today db (xs ++ y :: zs) =
      ((processPage today db xs).1 ++ [Ev.nav y.url],
       (processPage today db xs).2.1, true) := by
    rw [processPage_append today db xs (y :: zs) hxs]
    simp [processPage, hy]
  simp only [scrapeAux, hpage]
  have hne : (xs ++ y :: zs).isEmpty = false := by
    cases xs <;> simp
  rw [hne]
  simp only [Bool.false_eq_true, if_false, hfull]
  simp

/-- A concrete item whose listing date trips the stop condition. -/
def staleItem : ItemEnv :=
  { url := "v", getRaises := false, dateFound := true, listedDate := some 0,
    zipOk := false, zipPath := none, extractOk := true, pngs := [],
    cleanupOk := true }

/-- Witness for C5: one page containing only a stale item; the run stops
right after navigating to it, with unlimited pages remaining. -/
theorem date_stop_halts_crawl_witness :
    scrapeAux (fun _ => [staleItem]) 10 (7 + 1) 0 [] =
      Ev.pageNav 0 :: ((processPage 10 [] []).1 ++ [Ev.nav "v"]) :=
  date_stop_halts_crawl (fun _ => [staleItem]) 10 7 0 [] [] [] staleItem
    rfl (by decide) (by decide) (by decide) (by decide)

/-! ## The download state machines: download_zip_file.

Two variants exist in the source: the embroidery variant (lines
859-1190) and the t-shirt variant (lines 1820-2062).  Both run up to
`max_retries = 3` outer attempts; within an attempt they locate a
download control, snapshot the target directory, trigger the download,
and poll the directory for a new `*.zip` file, detouring through the
CAPTCHA resolver when blocked.

Wall-clock time is an abstract counter `t`; `dir t` is the listing of
the target directory at time `t` (a missing directory is listed as
empty, which the poll treats identically).  The counter advances by one
on each 1-second poll sleep and on each CAPTCHA solve attempt; other
operations are instantaneous.  The CAPTCHA resolver is abstracted by
the Boolean result of solve_captcha_and_click_submit. -/

/-- Result of `download_button.click.to_download` as the source
distinguishes it: a truthy result, a falsy result, or a raise. -/
inductive ClickRes
  | started
  | refused
  | raised
deriving DecidableEq

/-- `f.lower().endswith(".zip")`: after per-character lowercasing, the
last four characters are ".zip". -/
def isZipName (f : String) : Bool :=
  match (f.data.map Char.toLower).reverse with
  | p :: i :: z :: d :: _ => p == 'p' && i == 'i' && z == 'z' && d == '.'
  | _ => false

/-- The new-ZIP detection of every poll iteration (e.g. lines 975-978):
`new_files = current - before;
 zip_files = [f for f in new_files if f.lower().endswith(".zip")]`. -/
def newZips (before current : List String) : List String :=
  (current.filter fun f => !(before.contains f)).filter isZipName

/-- `os.path.join(download_path, zip_filename)`. -/
def joinPath (d f : String) : String := d ++ "/" ++ f

/-- One poll loop (e.g. lines 971-985):
`for wait_attempt in range(fuel): time.sleep(1); diff against before;
first zip found wins`.  Returns the joined path of the first match (or
none) together with the clock after the loop. -/
def pollLoop (path : String) (before : List String) (dir : Nat → List String) :
    Nat → Nat → Option String × Nat
  | 0, t => (none, t)
  | fuel + 1, t =>
    match (newZips before (dir (t + 1))).head? with
    | some f => (some (joinPath path f), t + 1)
    | none => pollLoop path before dir fuel (t + 1)

lemma pollLoop_finds (path : String) (before : List String)
    (dir : Nat → List String) (f : String) (k : Nat) :
    ∀ fuel t, k < fuel →
      (∀ j, j < k → newZips before (dir (t + j + 1)) = []) →
      (newZips before (dir (t + k + 1))).head? = some f →
      pollLoop path before dir fuel t = (some (joinPath path f), t + k + 1) := by
  induction k with
  | zero =>
    intro fuel t hk hnone hf
    cases fuel with
    | zero => omega
    | succ fl => simp only [pollLoop, hf]
  | succ k ih =>
    intro fuel t hk hnone hf
    cases fuel with
    | zero => omega
    | succ fl =>
      have h0 : (newZips before (dir (t + 1))).head? = none := by
        have := hnone 0 (Nat.succ_pos k)
        simp [this]
      simp only [pollLoop, h0]
      have e1 : ∀ j : Nat, t + 1 + j + 1 = t + (j + 1) + 1 := by intro j; omega
      have := ih fl (t + 1) (by omega)
        (fun j hj => by rw [e1 j]; exact hnone (j + 1) (by omega))
        (by rw [e1 k]; exact hf)
      rw [this]
      congr 1
      omega

/-! ### T-shirt variant (lines 1820-2062). -/

/-- Environment of the t-shirt `download_zip_file`, indexed by the outer
attempt number. -/
structure DZEnvT where
  /-- a download control matches one of the selectors (lines 1840-1845). -/
  buttonFound : Nat → Bool
  /-- outcome of click.to_download (lines 1865-1868). -/
  clickRes : Nat → ClickRes
  /-- a CAPTCHA marker is detected after a refused click (lines 1904-1914). -/
  captcha : Nat → Bool
  /-- result of solve_captcha_and_click_submit (line 1918). -/
  solveOk : Nat → Bool
  /-- the re-located retry control is found (lines 1952-1957 / 2003-2008). -/
  retryButtonFound : Nat → Bool
  /-- the retry click starts a download (raises and falsy results both
  fall through, lines 1961-1995 / 2012-2046). -/
  retryClickOk : Nat → Bool
  /-- directory listing at each clock tick. -/
  dir : Nat → List String

/-- The re-locate-and-retry block of the t-shirt variant (lines
1949-1995, repeated verbatim at lines 2000-2046): find the control
again, click, and poll 60 seconds against the ORIGINAL before-set;
returns (some outcome) on success, none to continue the outer loop. -/
def retryBlockT (env : DZEnvT) (path : String) (att : Nat)
    (before : List String) (t : Nat) : Option (Bool × Option String) × Nat :=
  if env.retryButtonFound att then
    if env.retryClickOk att then
      match pollLoop path before env.dir 60 t with
      | (some p, t1) => (some (true, some p), t1)
      | (none, t1) => (none, t1)
    else (none, t)
  else (none, t)

/-- The outer retry loop of the t-shirt `download_zip_file`.  `fuel` is
the number of remaining attempts (the current one included), `att` the
attempt index, `t` the clock.  On a refused click with a CAPTCHA
present, the solve attempt consumes one tick and, on success, the poll
runs against the before-set snapshotted BEFORE the click (line 1859,
reused per the comment at line 1920). -/
def dzT (env : DZEnvT) (path : String) : Nat → Nat → Nat → Bool × Option String
  | 0, _, _ => (false, none)
  | fuel + 1, att, t =>
    if env.buttonFound att then
      match env.clickRes att with
      | ClickRes.started =>
        match pollLoop path (env.dir t) env.dir 60 t with
        | (some p, _) => (true, some p)
        | (none, t1) => dzT env path fuel (att + 1) t1
      | ClickRes.refused =>
        if env.captcha att then
          if env.solveOk att then
            match pollLoop path (env.dir t) env.dir 60 (t + 1) with
            | (some p, _) => (true, some p)
            | (none, t1) =>
              match retryBlockT env path att (env.dir t) t1 with
              | (some r, _) => r
              | (none, t2) => dzT env path fuel (att + 1) t2
          else
            match retryBlockT env path att (env.dir t) (t + 1) with
            | (some r, _) => r
            | (none, t2) => dzT env path fuel (att + 1) t2
        else
          match retryBlockT env path att (env.dir t) t with
          | (some r, _) => r
          | (none, t2) => dzT env path fuel (att + 1) t2
      | ClickRes.raised =>
        match retryBlockT env path att (env.dir t) t with
        | (some r, _) => r
        | (none, t2) => dzT env path fuel (att + 1) t2
    else
      if fuel = 0 then (false, none)
      else dzT env path fuel (att + 1) t

/-- Entry point of the t-shirt `download_zip_file`: 3 attempts. -/
def downloadZipFileT (env : DZEnvT) (path : String) : Bool × Option String :=
  dzT env path 3 0 0

/-! ### Embroidery variant (lines 859-1190). -/

/-- Environment of the embroidery `download_zip_file`. -/
structure DZEnvC where
  /-- a download control matches one of the selectors (lines 876-887). -/
  buttonFound : Nat → Bool
  /-- a CAPTCHA marker is detected in the no-button branch (893-904). -/
  captchaNB : Nat → Bool
  /-- solve_captcha_and_click_submit result in that branch (line 908). -/
  solveNB : Nat → Bool
  /-- outcome of click.to_download (lines 958-961). -/
  clickRes : Nat → ClickRes
  /-- a CAPTCHA marker is detected after a refused click (998-1009). -/
  captchaCF : Nat → Bool
  /-- solve_captcha_and_click_submit result in that branch (line 1013). -/
  solveCF : Nat → Bool
  /-- a CAPTCHA marker is detected in the click-exception handler
  (lines 1078-1089). -/
  captchaCE : Nat → Bool
  /-- solve_captcha_and_click_submit result there (line 1093). -/
  solveCE : Nat → Bool
  /-- the click exception is an ElementLostError (line 1069). -/
  elementLost : Nat → Bool
  /-- the control has an http href for the direct-download fallback
  (lines 1133-1134). -/
  hrefOk : Nat → Bool
  /-- the direct download raises (caught at line 1166). -/
  directRaises : Nat → Bool
  /-- directory listing at each clock tick. -/
  dir : Nat → List String

/-- The snapshot-and-poll-or-give-up block that follows every solved
CAPTCHA in the embroidery variant (lines 910-939, 1016-1046 and
1096-1125): take a FRESH snapshot of the directory, poll 30 seconds,
and either return the found path or return failure outright, keeping
the already-downloaded image/PDF. -/
def capPoll (env : DZEnvC) (path : String) (t : Nat) : Bool × Option String :=
  match pollLoop path (env.dir t) env.dir 30 t with
  | (some p, _) => (true, some p)
  | (none, _) => (false, none)

/-- The last-attempt fall-through of the no-button branch (reaching line
953 with `download_button = None`): the click raises immediately, the
handler checks for a CAPTCHA (solve tick, then `capPoll` on success);
the href fallback also raises on the None control, so every other case
ends the final attempt with failure. -/
def lastNoButton (env : DZEnvC) (path : String) (att t : Nat) :
    Bool × Option String :=
  if env.captchaCE att then
    if env.solveCE att then capPoll env path (t + 1)
    else (false, none)
  else (false, none)

/-- The outer retry loop of the embroidery `download_zip_file` (lines
868-1190).  Structure per attempt: locate the control (no-button branch
on failure, with its own CAPTCHA detour and, on the last attempt, the
`lastNoButton` fall-through); snapshot; click; poll 30 seconds on a
started download; on a refused click detour through the CAPTCHA resolver
(fresh snapshot, line 1017) or refresh-and-retry; on a raised click
handle ElementLost, the CAPTCHA detour (fresh snapshot, line 1097), or
the direct-href fallback with its own snapshot and poll. -/
def dzfC (env : DZEnvC) (path : String) : Nat → Nat → Nat → Bool × Option String
  | 0, _, _ => (false, none)
  | fuel + 1, att, t =>
    if env.buttonFound att then
      match env.clickRes att with
      | ClickRes.started =>
        match pollLoop path (env.dir t) env.dir 30 t with
        | (some p, _) => (true, some p)
        | (none, t1) => dzfC env path fuel (att + 1) t1
      | ClickRes.refused =>
        if env.captchaCF att then
          if env.solveCF att then capPoll env path (t + 1)
          else if fuel = 0 then (false, none)
          else dzfC env path fuel (att + 1) (t + 1)
        else if fuel = 0 then (false, none)
        else dzfC env path fuel (att + 1) t
      | ClickRes.raised =>
        if env.elementLost att && !(fuel == 0) then
          dzfC env path fuel (att + 1) t
        else if env.captchaCE att then
          if env.solveCE att then capPoll env path (t + 1)
          else if env.hrefOk att && !(env.directRaises att) then
            match pollLoop path (env.dir (t + 1)) env.dir 30 (t + 1) with
            | (some p, _) => (true, some p)
            | (none, t1) => dzfC env path fuel (att + 1) t1
          else dzfC env path fuel (att + 1) (t + 1)
        else if env.hrefOk att && !(env.directRaises att) then
          match pollLoop path (env.dir t) env.dir 30 t with
          | (some p, _) => (true, some p)
          | (none, t1) => dzfC env path fuel (att + 1) t1
        else dzfC env path fuel (att + 1) t
    else
      if env.captchaNB att then
        if env.solveNB att then capPoll env path (t + 1)
        else if fuel = 0 then lastNoButton env path att (t + 1)
        else dzfC env path fuel (att + 1) (t + 1)
      else if fuel = 0 then lastNoButton env path att t
      else dzfC env path fuel (att + 1) t

/-- Entry point of the embroidery `download_zip_file`: 3 attempts. -/
def downloadZipFileC (env : DZEnvC) (path : String) : Bool × Option String :=
  dzfC env path 3 0 0

/-- Claim C1: when a verification challenge blocks the first attempt —
the trigger reporting failure (t-shirt variant) or the download control
being absent (embroidery variant) — and the challenge is cleared, the
machine re-enters the polling phase, and any `.zip` file appearing in
the directory within the poll window (relative to the before-snapshot:
the ORIGINAL pre-click snapshot `dir 0` in the t-shirt variant, the
post-clearance snapshot `dir 1` in the embroidery no-button branch)
makes download_zip_file return success with that file's path. -/
theorem challenge_detour_reaches_success
    (envT : DZEnvT) (envC : DZEnvC) (path f g : String) (k m : Nat)
    (hTb : envT.buttonFound 0 = true)
    (hTc : envT.clickRes 0 = ClickRes.refused)
    (hTcap : envT.captcha 0 = true)
    (hTsolve : envT.solveOk 0 = true)
    (hk : k < 60)
    (hTnone : ∀ j, j < k → newZips (envT.dir 0) (envT.dir (1 + j + 1)) = [])
    (hTnew : (newZips (envT.dir 0) (envT.dir (1 + k + 1))).head? = some f)
    (hCb : envC.buttonFound 0 = false)
    (hCcap : envC.captchaNB 0 = true)
    (hCsolve : envC.solveNB 0 = true)
    (hm : m < 30)
    (hCnone : ∀ j, j < m → newZips (envC.dir 1) (envC.dir (1 + j + 1)) = [])
    (hCnew : (newZips (envC.dir 1) (envC.dir (1 + m + 1))).head? = some g) :
    downloadZipFileT envT path = (true, some (joinPath path f)) ∧
    downloadZipFileC envC path = (true, some (joinPath path g)) := by
  constructor
  · have hpoll := pollLoop_finds path (envT.dir 0) envT.dir f k 60 1 hk hTnone hTnew
    simp only [downloadZipFileT, dzT, hTb, hTc, hTcap, hTsolve, if_true, hpoll]
  · have hpoll := pollLoop_finds path (envC.dir 1) envC.dir g m 30 1 hm hCnone hCnew
    simp only [downloadZipFileC, dzfC, hCb, hCcap, hCsolve, if_true,
      Bool.false_eq_true, if_false, capPoll, hpoll]

/-- Concrete t-shirt environment: button found, click refused, CAPTCHA
present and solved, the ZIP appears right after the solve. -/
def dzEnvT0 : DZEnvT :=
  { buttonFound := fun _ => true, clickRes := fun _ => ClickRes.refused,
    captcha := fun _ => true, solveOk := fun _ => true,
    retryButtonFound := fun _ => false, retryClickOk := fun _ => false,
    dir := fun t => if t ≤ 1 then [] else ["a.zip"] }

/-- Concrete embroidery environment: no download control, CAPTCHA
present and solved, the ZIP appears right after the solve. -/
def dzEnvC0 : DZEnvC :=
  { buttonFound := fun _ => false, captchaNB := fun _ => true,
    solveNB := fun _ => true, clickRes := fun _ => ClickRes.started,
    captchaCF := fun _ => false, solveCF := fun _ => false,
    captchaCE := fun _ => false, solveCE := fun _ => false,
    elementLost := fun _ => false, hrefOk := fun _ => false,
    directRaises := fun _ => false,
    dir := fun t => if t ≤ 1 then [] else ["b.zip"] }

/-- Witness for C1 at the concrete environments. -/
theorem challenge_detour_reaches_success_witness :
    downloadZipFileT dzEnvT0 "dl" = (true, some (joinPath "dl" "a.zip")) ∧
    downloadZipFileC dzEnvC0 "dl" = (true, some (joinPath "dl" "b.zip")) :=
  challenge_detour_reaches_success dzEnvT0 dzEnvC0 "dl" "a.zip" "b.zip" 0 0
    rfl rfl rfl rfl (by omega)
    (fun j hj => absurd hj (Nat.not_lt_zero j)) (by decide)
    rfl rfl rfl (by omega)
    (fun j hj => absurd hj (Nat.not_lt_zero j)) (by decide)

/-! ## get_unique_filename (lines 1774-1781), used by process_download
when moving extracted PNGs into the save root (lines 2087-2094).

`name, ext = os.path.splitext(filename)`; then while
`os.path.exists(os.path.join(directory, new_filename))` the candidate is
rebuilt as f-string name(counter)ext with counter = 1, 2, ....  The
directory is modelled by the list of filenames it contains; filenames
are character lists underneath Lean strings. -/

lemma contains_true_iff (l : List String) (s : String) :
    l.contains s = true ↔ s ∈ l := by
  simp [List.contains_iff_exists_mem_beq]

/-- Split a character list at its LAST dot: `some (head, tail)` where
`tail` starts with that dot, `none` when no dot occurs. -/
def splitLastDot : List Char → Option (List Char × List Char)
  | [] => none
  | c :: cs =>
    match splitLastDot cs with
    | some (pre, suf) => some (c :: pre, suf)
    | none => if c = '.' then some ([], c :: cs) else none

/-- `os.path.splitext` for a bare filename: split at the last dot unless
every character before it is itself a dot (so ".bashrc" keeps its
leading-dot name and gets an empty extension). -/
def splitext (s : List Char) : List Char × List Char :=
  match splitLastDot s with
  | some (pre, suf) => if pre.any (fun c => !(c == '.')) then (pre, suf) else (s, [])
  | none => (s, [])

lemma splitLastDot_append :
    ∀ (s pre suf : List Char), splitLastDot s = some (pre, suf) → pre ++ suf = s := by
  intro s
  induction s with
  | nil => intro pre suf h; simp [splitLastDot] at h
  | cons c cs ih =>
    intro pre suf h
    simp only [splitLastDot] at h
    cases hrec : splitLastDot cs with
    | some pr =>
      obtain ⟨p2, s2⟩ := pr
      simp only [hrec, Option.some.injEq, Prod.mk.injEq] at h
      obtain ⟨h1, h2⟩ := h
      subst h1
      subst h2
      simpa using ih p2 s2 hrec
    | none =>
      simp only [hrec] at h
      by_cases hdot : c = '.'
      · rw [if_pos hdot] at h
        simp only [Option.some.injEq, Prod.mk.injEq] at h
        obtain ⟨h1, h2⟩ := h
        subst h1
        subst h2
        rfl
      · rw [if_neg hdot] at h
        cases h

lemma splitext_append (s : List Char) :
    (splitext s).1 ++ (splitext s).2 = s := by
  cases h : splitLastDot s with
  | none => simp [splitext, h]
  | some pr =>
    obtain ⟨pre, suf⟩ := pr
    by_cases hc : (pre.any fun c => !(c == '.')) = true
    · simp only [splitext, h, hc, if_true]
      exact splitLastDot_append s pre suf h
    · simp [splitext, h, hc]

/-- Little-endian value of a base-10 digit list. -/
def fromDigits : List Nat → Nat
  | [] => 0
  | d :: ds => d + 10 * fromDigits ds

/-- Little-endian base-10 digits of `n` (with explicit fuel). -/
def decNats : Nat → Nat → List Nat
  | 0, _ => []
  | fuel + 1, n => if n = 0 then [] else n % 10 :: decNats fuel (n / 10)

lemma decNats_spec : ∀ fuel n, n ≤ fuel → fromDigits (decNats fuel n) = n := by
  intro fuel
  induction fuel with
  | zero =>
    intro n h
    have : n = 0 := by omega
    simp [decNats, fromDigits, this]
  | succ fl ih =>
    intro n h
    by_cases h0 : n = 0
    · simp [decNats, h0, fromDigits]
    · simp only [decNats, h0, if_false, fromDigits]
      have hle : n / 10 ≤ fl := by omega
      rw [ih _ hle]
      omega

lemma decNats_lt : ∀ fuel n d, d ∈ decNats fuel n → d < 10 := by
  intro fuel
  induction fuel with
  | zero => intro n d hd; simp [decNats] at hd
  | succ fl ih =>
    intro n d hd
    simp only [decNats] at hd
    split at hd
    · simp at hd
    · rcases List.mem_cons.mp hd with h | h
      · omega
      · exact ih _ _ h

/-- The character of a decimal digit, as produced by Python string
formatting. -/
def digitChar (d : Nat) : Char := Char.ofNat (48 + d)

/-- The decimal numeral of `k`, as produced by the f-string
interpolation of the counter. -/
def decDigits (k : Nat) : List Char :=
  if k = 0 then ['0'] else ((decNats k k).map digitChar).reverse

lemma digitChar_inj_lt : ∀ d, d < 10 → ∀ e, e < 10 →
    digitChar d = digitChar e → d = e := by decide

lemma digitChar_ne_rparen : ∀ d, d < 10 → digitChar d ≠ ')' := by decide

lemma map_digitChar_inj : ∀ l1 l2 : List Nat,
    (∀ d ∈ l1, d < 10) → (∀ d ∈ l2, d < 10) →
    l1.map digitChar = l2.map digitChar → l1 = l2 := by
  intro l1
  induction l1 with
  | nil =>
    intro l2 _ _ h
    cases l2 with
    | nil => rfl
    | cons e es => simp at h
  | cons d ds ih =>
    intro l2 h1 h2 h
    cases l2 with
    | nil => simp at h
    | cons e es =>
      simp only [List.map_cons, List.cons.injEq] at h
      obtain ⟨hde, hrest⟩ := h
      have hd := digitChar_inj_lt d (h1 d (List.mem_cons_self d ds))
        e (h2 e (List.mem_cons_self e es)) hde
      have ht := ih es (fun x hx => h1 x (List.mem_cons_of_mem d hx))
        (fun x hx => h2 x (List.mem_cons_of_mem e hx)) hrest
      rw [hd, ht]

lemma decDigits_inj (j j' : Nat) (hj : 1 ≤ j) (hj' : 1 ≤ j')
    (h : decDigits j = decDigits j') : j = j' := by
  unfold decDigits at h
  rw [if_neg (by omega), if_neg (by omega)] at h
  have h2 := List.reverse_injective h
  have h3 := map_digitChar_inj _ _ (fun d hd => decNats_lt j j d hd)
    (fun d hd => decNats_lt j' j' d hd) h2
  have e1 := decNats_spec j j le_rfl
  have e2 := decNats_spec j' j' le_rfl
  rw [h3, e2] at e1
  omega

lemma decDigits_rparen_notMem (k : Nat) : ')' ∉ decDigits k := by
  intro hc
  unfold decDigits at hc
  split at hc
  · simp at hc
  · rw [List.mem_reverse, List.mem_map] at hc
    obtain ⟨d, hd, he⟩ := hc
    exact digitChar_ne_rparen d (decNats_lt k k d hd) he

lemma append_sep_inj (c : Char) :
    ∀ (u v r r' : List Char), c ∉ u → c ∉ v →
      u ++ c :: r = v ++ c :: r' → u = v ∧ r = r' := by
  intro u
  induction u with
  | nil =>
    intro v r r' _ hv h
    cases v with
    | nil =>
      simp only [List.nil_append, List.cons.injEq] at h
      exact ⟨rfl, h.2⟩
    | cons b bs =>
      simp only [List.nil_append, List.cons_append, List.cons.injEq] at h
      refine absurd ?_ hv
      rw [h.1]
      exact List.mem_cons_self b bs
  | cons a as ih =>
    intro v r r' hu hv h
    cases v with
    | nil =>
      simp only [List.cons_append, List.nil_append, List.cons.injEq] at h
      refine absurd ?_ hu
      rw [← h.1]
      exact List.mem_cons_self a as
    | cons b bs =>
      simp only [List.cons_append, List.cons.injEq] at h
      obtain ⟨hab, ht⟩ := h
      have := ih bs r r' (fun hm => hu (List.mem_cons_of_mem a hm))
        (fun hm => hv (List.mem_cons_of_mem b hm)) ht
      exact ⟨by rw [hab, this.1], this.2⟩

/-- The candidate filename f-string name(counter)ext (line 1779). -/
def candName (n e : List Char) (k : Nat) : String :=
  ⟨n ++ ('(' :: decDigits k) ++ (')' :: e)⟩

lemma candName_inj (n e : List Char) (j j' : Nat) (hj : 1 ≤ j) (hj' : 1 ≤ j')
    (h : candName n e j = candName n e j') : j = j' := by
  have hd : n ++ ('(' :: decDigits j) ++ (')' :: e)
      = n ++ ('(' :: decDigits j') ++ (')' :: e) := congrArg String.data h
  rw [List.append_assoc, List.append_assoc] at hd
  have h2 := List.append_cancel_left hd
  simp only [List.cons_append, List.cons.injEq, true_and] at h2
  have h3 := append_sep_inj ')' (decDigits j) (decDigits j') e e
    (decDigits_rparen_notMem j) (decDigits_rparen_notMem j') h2
  exact decDigits_inj j j' hj hj' h3.1

/-- The while loop of `get_unique_filename`: try counters k, k+1, ...
until the candidate is absent from the directory.  `fuel` bounds the
iterations; the fallback on exhaustion is never reached (see
`uniqueLoop_notMem`). -/
def uniqueLoop (existing : List String) (n e : List Char) : Nat → Nat → String
  | 0, k => candName n e k
  | fuel + 1, k =>
    if existing.contains (candName n e k) then uniqueLoop existing n e fuel (k + 1)
    else candName n e k

lemma uniqueLoop_shape (existing : List String) (n e : List Char) :
    ∀ fuel k, ∃ j, k ≤ j ∧ uniqueLoop existing n e fuel k = candName n e j := by
  intro fuel
  induction fuel with
  | zero => intro k; exact ⟨k, le_rfl, rfl⟩
  | succ fl ih =>
    intro k
    unfold uniqueLoop
    by_cases h : existing.contains (candName n e k) = true
    · rw [if_pos h]
      obtain ⟨j, hj1, hj2⟩ := ih (k + 1)
      exact ⟨j, by omega, hj2⟩
    · rw [if_neg h]
      exact ⟨k, le_rfl, rfl⟩

lemma uniqueLoop_notMem (existing : List String) (n e : List Char) :
    ∀ fuel k, (∃ j, k ≤ j ∧ j < k + fuel ∧ candName n e j ∉ existing) →
      uniqueLoop existing n e fuel k ∉ existing := by
  intro fuel
  induction fuel with
  | zero =>
    intro k h
    obtain ⟨j, h1, h2, _⟩ := h
    omega
  | succ fl ih =>
    intro k h
    obtain ⟨j, hj1, hj2, hj3⟩ := h
    unfold uniqueLoop
    by_cases hc : existing.contains (candName n e k) = true
    · rw [if_pos hc]
      apply ih (k + 1)
      have hk : candName n e k ∈ existing := (contains_true_iff _ _).mp hc
      have hne : j ≠ k := fun hjk => hj3 (hjk ▸ hk)
      exact ⟨j, by omega, by omega, hj3⟩
    · rw [if_neg hc]
      exact fun hm => hc ((contains_true_iff _ _).mpr hm)

lemma exists_fresh (existing : List String) (n e : List Char) :
    ∃ j, 1 ≤ j ∧ j < existing.length + 2 ∧ candName n e j ∉ existing := by
  by_contra hcon
  push_neg at hcon
  have hnd : ((List.range (existing.length + 1)).map
      (fun i => candName n e (i + 1))).Nodup := by
    refine List.Nodup.map_on ?_ (List.nodup_range _)
    intro x _ y _ hxy
    have := candName_inj n e (x + 1) (y + 1) (by omega) (by omega) hxy
    omega
  have hsub : ((List.range (existing.length + 1)).map
      (fun i => candName n e (i + 1))) ⊆ existing := by
    intro s hs
    rw [List.mem_map] at hs
    obtain ⟨i, hi, rfl⟩ := hs
    rw [List.mem_range] at hi
    exact hcon (i + 1) (by omega) (by omega)
  have hlen := (hnd.subperm hsub).length_le
  simp at hlen

/-- `get_unique_filename` (lines 1774-1781): return the filename itself
when absent from the directory, otherwise the first name(k)ext candidate
(k = 1, 2, ...) that is absent. -/
def getUniqueFilename (existing : List String) (filename : String) : String :=
  if existing.contains filename then
    uniqueLoop existing (splitext filename.data).1 (splitext filename.data).2
      (existing.length + 1) 1
  else filename

/-- Claim C10: get_unique_filename returns a filename absent from the
directory; an absent candidate is returned unchanged; an existing
candidate yields name(k)ext for some counter k ≥ 1, where (name, ext) is
the splitext decomposition of the candidate — whose concatenation is the
candidate itself — so moving an extracted PNG into the save root never
overwrites an existing file. -/
theorem unique_filename_spec (existing : List String) (filename : String) :
    getUniqueFilename existing filename ∉ existing ∧
    (filename ∉ existing → getUniqueFilename existing filename = filename) ∧
    (filename ∈ existing → ∃ k, 1 ≤ k ∧
      getUniqueFilename existing filename =
        candName (splitext filename.data).1 (splitext filename.data).2 k) ∧
    (splitext filename.data).1 ++ (splitext filename.data).2 = filename.data := by
  refine ⟨?_, ?_, ?_, splitext_append filename.data⟩
  · unfold getUniqueFilename
    by_cases hc : existing.contains filename = true
    · rw [if_pos hc]
      apply uniqueLoop_notMem
      obtain ⟨j, h1, h2, h3⟩ :=
        exists_fresh existing (splitext filename.data).1 (splitext filename.data).2
      exact ⟨j, h1, by omega, h3⟩
    · rw [if_neg hc]
      exact fun hm => hc ((contains_true_iff _ _).mpr hm)
  · intro hnm
    unfold getUniqueFilename
    rw [if_neg (fun hc => hnm ((contains_true_iff _ _).mp hc))]
  · intro hm
    unfold getUniqueFilename
    rw [if_pos ((contains_true_iff _ _).mpr hm)]
    obtain ⟨j, hj1, hj2⟩ := uniqueLoop_shape existing
      (splitext filename.data).1 (splitext filename.data).2 (existing.length + 1) 1
    exact ⟨j, hj1, hj2⟩

/-- Witness for C10: with "a.png" and "a(1).png" already present the
function steps to "a(2).png"; an absent candidate is kept verbatim. -/
theorem unique_filename_spec_witness :
    getUniqueFilename ["a.png", "a(1).png"] "a.png" ∉ (["a.png", "a(1).png"] : List String) ∧
    getUniqueFilename [] "b.png" = "b.png" :=
  ⟨(unique_filename_spec ["a.png", "a(1).png"] "a.png").1,
   (unique_filename_spec [] "b.png").2.1 (by decide)⟩

end CFGallery
